import Mathlib

/-!
Shallow embedding of the react-analyzer-mcp documentation pipeline
(src/index.ts) and proofs about it.

The filesystem is modelled explicitly: a directory listing either succeeds
with a list of entries or fails (readdirSync throwing), and each
subdirectory carries its own readability flag.  JavaScript truthiness on
the dynamically typed analysis values is modelled by `Option`: a field
that is `none` corresponds to an absent-or-falsy JS value, `some x` to a
truthy one; presence checks in the source (`propDetails.elementType`,
`propDetails.props`, `component.wrapperFn`, ...) become `Option` matches.
Exceptions of external collaborators (fs reads, the external analyzer)
are modelled with `Except`, and the try/catch blocks of the source become
matches on the `Except` value.
-/

/-- Root project folder constant from src/index.ts (`PROJECT_ROOT`). -/
def PROJECT_ROOT : String := "/Users/azer/code"

/-- Model of Node's `path.join` for the simple two-segment joins the
source performs. -/
def pathJoin (a b : String) : String := a ++ "/" ++ b

/-- Model of Node's `path.basename`: the final path segment. -/
def basename (p : String) : String :=
  match (p.splitOn "/").getLast? with
  | some s => s
  | none => p

/-- Model of Node's `path.relative(PROJECT_ROOT, filePath)` for paths
that lie under the base, as produced by the scanner. -/
def pathRelative (base p : String) : String :=
  if (base ++ "/").isPrefixOf p then p.drop (base ++ "/").length else p

/-- A prop-type descriptor as consumed by `formatPropType`
(src/index.ts).  Fields mirror the dynamically typed JS record:
`type`, `optional`, `defaultValue`, `elementType`, `props`, `typeName`;
`none` stands for an absent (or falsy) field. -/
inductive PropDescriptor where
  | mk (type : String) (optional : Bool) (defaultValue : Option String)
      (elementType : Option PropDescriptor)
      (props : Option (List (String × PropDescriptor)))
      (typeName : Option String)

def PropDescriptor.type : PropDescriptor → String
  | .mk t _ _ _ _ _ => t

def PropDescriptor.optional : PropDescriptor → Bool
  | .mk _ o _ _ _ _ => o

def PropDescriptor.defaultValue : PropDescriptor → Option String
  | .mk _ _ d _ _ _ => d

def PropDescriptor.elementType : PropDescriptor → Option PropDescriptor
  | .mk _ _ _ e _ _ => e

def PropDescriptor.props : PropDescriptor → Option (List (String × PropDescriptor))
  | .mk _ _ _ _ p _ => p

def PropDescriptor.typeName : PropDescriptor → Option String
  | .mk _ _ _ _ _ n => n

/-- The branches of `formatPropType` that do not depend on `elementType`:
the `object`-with-props branch, the `function` branch, and the verbatim
fallback.  Factored out because the source checks them in the same order
whether or not `elementType` is present. -/
def formatPropTypeBase (ty : String) (hasProps : Bool)
    (typeName : Option String) : String :=
  if ty = "object" && hasProps then
    match typeName with
    | some n => "`" ++ n ++ "`"
    | none => "`object`"
  else if ty = "function" then
    "`function`"
  else
    "`" ++ ty ++ "`"

/-- `formatPropType` from src/index.ts: renders a prop type descriptor
to a markdown token, recursing into array element types. -/
def formatPropType : PropDescriptor → String
  | .mk ty _ _ (some elementType) props typeName =>
    if ty = "array" then
      ty ++ "<" ++ formatPropType elementType ++ ">"
    else
      formatPropTypeBase ty props.isSome typeName
  | .mk ty _ _ none props typeName =>
    formatPropTypeBase ty props.isSome typeName

/-- One component of an analysis result, as read by
`generateComponentMarkdown`: `name`, optional `wrapperFn`, and a prop
map rendered in iteration order (modelled as an association list). -/
structure Component where
  name : String
  wrapperFn : Option String
  props : Option (List (String × PropDescriptor))

/-- The external analyzer result, as read by
`generateComponentMarkdown`: a record whose `components` field may be
absent. -/
structure AnalysisResult where
  components : Option (List Component)

/-- String concatenation over a list, mirroring the
`let markdown = ""; for (...) markdown += ...` accumulation loops of
the source. -/
def concatMap {α : Type} (f : α → String) : List α → String
  | [] => ""
  | x :: rest => f x ++ concatMap f rest

/-- One row of the props table in `generateComponentMarkdown`. -/
def propRow (propName : String) (propDetails : PropDescriptor) : String :=
  let type := formatPropType propDetails
  let optional := if propDetails.optional then "✓" else "✗"
  let defaultValue :=
    match propDetails.defaultValue with
    | some v => "`" ++ v ++ "`"
    | none => ""
  "| `" ++ propName ++ "` | " ++ type ++ " | " ++ optional ++ " | " ++
    defaultValue ++ " |\n"

/-- The body of the per-component loop in `generateComponentMarkdown`:
heading, optional wrapper annotation, and the props subsection. -/
def componentMarkdown (component : Component) : String :=
  "## " ++ component.name ++ "\n\n" ++
  (match component.wrapperFn with
   | some w => "*Wrapped with: " ++ w ++ "*\n\n"
   | none => "") ++
  "### Props\n\n" ++
  (match component.props with
   | none => "*No props*\n\n"
   | some entries =>
     if entries.length = 0 then
       "*No props*\n\n"
     else
       "| Prop | Type | Optional | Default |\n" ++
       "|------|------|----------|--------|\n" ++
       concatMap (fun e => propRow e.1 e.2) entries ++ "\n")

/-- `generateComponentMarkdown` from src/index.ts.  The argument is the
(possibly null) analysis result; its `components` field may itself be
absent, and the source guards
`!analysisResult || !analysisResult.components || length === 0`. -/
def generateComponentMarkdown (analysisResult : Option AnalysisResult) : String :=
  match analysisResult with
  | none => "**No components found**"
  | some a =>
    match a.components with
    | none => "**No components found**"
    | some components =>
      if components.length = 0 then
        "**No components found**"
      else
        concatMap componentMarkdown components

/-- `analyzeReactFileContents` from src/index.ts: read the file, derive
the display name, delegate to the external analyzer; any failure of
either step is caught and turned into `none`. -/
def analyzeReactFileContents (fsRead : String → Except String String)
    (analyzeReactFile : String → String → Except String AnalysisResult)
    (filePath : String) : Option AnalysisResult :=
  match fsRead filePath with
  | .error _ => none
  | .ok fileContent =>
    match analyzeReactFile (basename filePath) fileContent with
    | .error _ => none
    | .ok result => some result

/-- One entry of a directory listing, as seen by the scanner: a file, a
subdirectory (with its own listing, and a flag telling whether listing
it succeeds), or a Dirent that is neither a file nor a directory. -/
inductive FSEntry where
  | file (name : String)
  | dir (name : String) (readable : Bool) (entries : List FSEntry)
  | other (name : String)

/-- The component-file naming policy of `listReactFiles`:
`entry.name.endsWith(".jsx") || entry.name.endsWith(".tsx")`. -/
def isReactFileName (name : String) : Bool :=
  name.endsWith ".jsx" || name.endsWith ".tsx"

/-- The body of `scanDirectory` in `listReactFiles` (src/index.ts),
processing the entries of the directory named `directory` in listing
order: recurse into subdirectories (an unreadable subdirectory is
caught, logged and contributes nothing), collect matching files. -/
def scanEntries (directory : String) : List FSEntry → List String
  | [] => []
  | .file name :: rest =>
    (if isReactFileName name then [pathJoin directory name] else []) ++
      scanEntries directory rest
  | .dir name readable entries :: rest =>
    (if readable then scanEntries (pathJoin directory name) entries else []) ++
      scanEntries directory rest
  | .other _ :: rest => scanEntries directory rest

/-- `scanDirectory` on the top-level folder: if even the root listing
fails, the catch block yields no files. -/
def scanDirectory (directory : String) (readable : Bool)
    (entries : List FSEntry) : List String :=
  if readable then scanEntries directory entries else []

/-- `listReactFiles` from src/index.ts, over the modelled state
(`readable`, `entries`) of the folder `PROJECT_ROOT/subFolder`. -/
def listReactFiles (subFolder : String) (readable : Bool)
    (entries : List FSEntry) : List String :=
  scanDirectory (pathJoin PROJECT_ROOT subFolder) readable entries

/-- A directory entry of the project root, as seen by `listProjects`
(Node `Dirent`): its name and whether it is a directory. -/
structure RootDirent where
  name : String
  isDirectory : Bool

/-- `listProjects` from src/index.ts, over the modelled result of
`readdirSync(PROJECT_ROOT)`: on failure return `[]`, else keep
directory entries whose name does not start with ".". -/
def listProjects (readdirResult : Except String (List RootDirent)) : List String :=
  match readdirResult with
  | .error _ => []
  | .ok entries =>
    (entries.filter
      (fun entry => entry.isDirectory && !(entry.name.startsWith "."))).map
      (fun dir => dir.name)

/-- `generateProjectDocs` from src/index.ts, over the modelled state of
the project folder and the modelled external collaborators. -/
def generateProjectDocs (fsRead : String → Except String String)
    (analyzeReactFile : String → String → Except String AnalysisResult)
    (projectName : String) (rootReadable : Bool)
    (rootEntries : List FSEntry) : String :=
  let reactFiles := listReactFiles projectName rootReadable rootEntries
  if reactFiles.length = 0 then
    "# " ++ projectName ++ "\n\nNo React components found."
  else
    "# " ++ projectName ++ " Components\n\n" ++
    concatMap (fun filePath =>
      let relativePath := pathRelative PROJECT_ROOT filePath
      "\n---\n\n# File: " ++ relativePath ++ "\n\n" ++
      (match analyzeReactFileContents fsRead analyzeReactFile filePath with
       | some analysis => generateComponentMarkdown (some analysis)
       | none => "*Error analyzing file*\n\n")) reactFiles

/-! Concrete descriptors used by the formatter claims. -/

/-- The element descriptor of the C1 input: type "object" with a
`typeName` but no nested `props`. -/
def c1Elem : PropDescriptor := .mk "object" false none none none (some "Foo")

/-- The C1 input: an array of `c1Elem`. -/
def c1Input : PropDescriptor := .mk "array" false none (some c1Elem) none none

/-- Builds `n` nested array levels (each with `elementType` present)
around a base descriptor. -/
def nestArray : Nat → PropDescriptor → PropDescriptor
  | 0, base => base
  | n + 1, base => .mk "array" false none (some (nestArray n base)) none none

/-- Concatenation of `n` copies of a string. -/
def repeatStr : Nat → String → String
  | 0, _ => ""
  | n + 1, s => s ++ repeatStr n s

/-- Modelled from the spec (§4.4, refinement side): all files reachable
through readable directories of a subtree, with their full path and
their own name; an unreadable subdirectory contributes nothing, the
scan of its siblings is unaffected. -/
def specAllFilesUnder (directory : String) : List FSEntry → List (String × String)
  | [] => []
  | .file name :: rest =>
    (pathJoin directory name, name) :: specAllFilesUnder directory rest
  | .dir name readable entries :: rest =>
    (if readable then specAllFilesUnder (pathJoin directory name) entries
     else []) ++
      specAllFilesUnder directory rest
  | .other _ :: rest => specAllFilesUnder directory rest

/-- Modelled from the spec (§4.4, refinement side): the scan result is
exactly the files under the subtree whose names end in a recognized
extension, collected first and filtered afterwards; an unlistable root
yields nothing. -/
def specScanDirectory (directory : String) (readable : Bool)
    (entries : List FSEntry) : List String :=
  if readable then
    ((specAllFilesUnder directory entries).filter
      (fun f => isReactFileName f.2)).map (fun f => f.1)
  else []

/-- Substring containment, stated on the underlying character lists. -/
def strContains (needle hay : String) : Prop := needle.data <:+: hay.data

instance (needle hay : String) : Decidable (strContains needle hay) :=
  inferInstanceAs (Decidable (needle.data <:+: hay.data))

/-- Concrete component for the wrapper-annotation claims: wrapped with
"memo". -/
def c7Component : Component := ⟨"Button", some "memo", none⟩

/-- C1 (counterexample): on the input `{type:"array",
elementType:{type:"object", typeName:"Foo"}}` with no nested `props`,
`formatPropType` does NOT return the claimed string, because the
object-with-typeName branch requires `props` to be present; the element
falls through to the verbatim fallback instead. -/
theorem formatPropType_c1_counterexample :
    formatPropType c1Input ≠ "array<`Foo`>" ∧
      formatPropType c1Input = "array<`object`>" :=
  ⟨by decide, rfl⟩

/-- C1 (amended): for any array descriptor whose element has type
"object", a `typeName`, and no nested `props`, `formatPropType` returns
the string with the element rendered as the code token for "object"
(the typeName is ignored because the `props` field is absent). -/
theorem formatPropType_array_of_object_without_props
    (o1 o2 : Bool) (d1 d2 : Option String) (tn : Option String) :
    formatPropType
      (.mk "array" o1 d1 (some (.mk "object" o2 d2 none none tn)) none none) =
      "array<`object`>" :=
  rfl

/-- C9: for every descriptor of type "object" whose `props` field is
absent, `formatPropType` returns the code token for "object",
whatever `typeName`, `optional`, `defaultValue` or `elementType` hold. -/
theorem formatPropType_object_without_props
    (o : Bool) (dv : Option String) (et : Option PropDescriptor)
    (tn : Option String) :
    formatPropType (.mk "object" o dv et none tn) = "`object`" := by
  cases et <;> rfl

theorem repeatStr_succ_right (n : Nat) (s : String) :
    repeatStr (n + 1) s = repeatStr n s ++ s := by
  induction n with
  | zero =>
    show s ++ "" = "" ++ s
    rw [String.append_empty, String.empty_append]
  | succ k ih =>
    calc repeatStr (k + 2) s = s ++ repeatStr (k + 1) s := rfl
      _ = s ++ (repeatStr k s ++ s) := by rw [ih]
      _ = (s ++ repeatStr k s) ++ s := by rw [String.append_assoc]
      _ = repeatStr (k + 1) s ++ s := rfl

/-- C2: `formatPropType` is a total computable function (hence
deterministic and failure-free on every well-formed descriptor), and on
`n` nested array levels around any base descriptor it produces exactly
`n` wrappings, that is the string with `n` copies of the opener in
front of the base rendering and `n` closers after it. -/
theorem formatPropType_nested_arrays (n : Nat) (base : PropDescriptor) :
    formatPropType (nestArray n base) =
      repeatStr n "array<" ++ formatPropType base ++ repeatStr n ">" := by
  induction n with
  | zero =>
    show formatPropType base = "" ++ (formatPropType base ++ "")
    rw [String.append_empty, String.empty_append]
  | succ k ih =>
    have hfuse : ∀ t : String, "array" ++ ("<" ++ t) = "array<" ++ t := by
      intro t
      rw [← String.append_assoc]
      exact rfl
    have hstep :
        formatPropType (nestArray (k + 1) base) =
          "array" ++ "<" ++ formatPropType (nestArray k base) ++ ">" := rfl
    rw [hstep, ih, repeatStr_succ_right k ">"]
    show "array" ++ "<" ++ (repeatStr k "array<" ++ formatPropType base ++
        repeatStr k ">") ++ ">" =
      "array<" ++ repeatStr k "array<" ++ formatPropType base ++
        (repeatStr k ">" ++ ">")
    simp only [String.append_assoc]
    rw [hfuse]

/-- C3: for an absent analysis result, and for every analysis result
whose component sequence is present but empty, the renderer returns
exactly the fixed literal. -/
theorem generateComponentMarkdown_no_components :
    generateComponentMarkdown none = "**No components found**" ∧
      ∀ a : AnalysisResult, a.components = some [] →
        generateComponentMarkdown (some a) = "**No components found**" := by
  refine ⟨rfl, ?_⟩
  intro a h
  simp [generateComponentMarkdown, h]

/-- Witness for C3 at the concrete analysis result with an empty
component list. -/
theorem generateComponentMarkdown_no_components_witness :
    (AnalysisResult.mk (some [])).components = some [] ∧
      generateComponentMarkdown (some (AnalysisResult.mk (some []))) =
        "**No components found**" :=
  ⟨rfl, generateComponentMarkdown_no_components.2 (AnalysisResult.mk (some [])) rfl⟩

/-- C10: for every analysis result that is present but whose
`components` field is absent, the renderer returns exactly the fixed
literal rather than failing. -/
theorem generateComponentMarkdown_absent_components
    (a : AnalysisResult) (h : a.components = none) :
    generateComponentMarkdown (some a) = "**No components found**" := by
  simp [generateComponentMarkdown, h]

/-- Witness for C10 at the concrete analysis result whose `components`
field is absent. -/
theorem generateComponentMarkdown_absent_components_witness :
    (AnalysisResult.mk none).components = none ∧
      generateComponentMarkdown (some (AnalysisResult.mk none)) =
        "**No components found**" :=
  ⟨rfl, generateComponentMarkdown_absent_components (AnalysisResult.mk none) rfl⟩

/-- C6: for every modelled filesystem read, every modelled external
analyzer and every file path, `analyzeReactFileContents` either returns
the external analyzer's successful result on the file's content, or
returns `none`; being a total function into `Option`, it never
propagates a failure to its caller. -/
theorem analyzeReactFileContents_isolates_failures
    (fsRead : String → Except String String)
    (analyzeRF : String → String → Except String AnalysisResult)
    (filePath : String) :
    (∃ content result,
        fsRead filePath = .ok content ∧
        analyzeRF (basename filePath) content = .ok result ∧
        analyzeReactFileContents fsRead analyzeRF filePath = some result) ∨
      analyzeReactFileContents fsRead analyzeRF filePath = none := by
  cases h1 : fsRead filePath with
  | error e => exact Or.inr (by simp [analyzeReactFileContents, h1])
  | ok content =>
    cases h2 : analyzeRF (basename filePath) content with
    | error e => exact Or.inr (by simp [analyzeReactFileContents, h1, h2])
    | ok result =>
      exact Or.inl ⟨content, result, rfl, h2,
        by simp [analyzeReactFileContents, h1, h2]⟩

/-- C8: when the root listing fails, `listProjects` returns the empty
sequence (without raising: it is a total function); when it succeeds,
the returned names are exactly the names of the listed entries that are
directories and do not start with ".". -/
theorem listProjects_characterization :
    (∀ e : String, listProjects (.error e) = []) ∧
      ∀ (entries : List RootDirent) (n : String),
        n ∈ listProjects (.ok entries) ↔
          ∃ entry ∈ entries,
            entry.name = n ∧ entry.isDirectory = true ∧
              entry.name.startsWith "." = false := by
  refine ⟨fun e => rfl, ?_⟩
  intro entries n
  simp only [listProjects, List.mem_map, List.mem_filter, Bool.and_eq_true,
    Bool.not_eq_true']
  constructor
  · rintro ⟨entry, ⟨hmem, hdir, hdot⟩, hname⟩
    exact ⟨entry, hmem, hname, hdir, hdot⟩
  · rintro ⟨entry, hmem, hname, hdir, hdot⟩
    exact ⟨entry, ⟨hmem, hdir, hdot⟩, hname⟩

/-- C5: whenever the scanner finds no component files for a project,
`generateProjectDocs` returns exactly the minimal document: a level-1
heading with the project name, a blank line, then the literal closing
line. -/
theorem generateProjectDocs_empty_project
    (fsRead : String → Except String String)
    (analyzeRF : String → String → Except String AnalysisResult)
    (projectName : String) (rootReadable : Bool) (rootEntries : List FSEntry)
    (h : listReactFiles projectName rootReadable rootEntries = []) :
    generateProjectDocs fsRead analyzeRF projectName rootReadable rootEntries =
      "# " ++ projectName ++ "\n\nNo React components found." := by
  simp [generateProjectDocs, h]

/-- Witness for C5 at a concrete empty project folder. -/
theorem generateProjectDocs_empty_project_witness :
    listReactFiles "demo" true [] = [] ∧
      generateProjectDocs (fun _ => .error "unreadable")
          (fun _ _ => .error "parse") "demo" true [] =
        "# " ++ "demo" ++ "\n\nNo React components found." :=
  ⟨by simp [listReactFiles, scanDirectory, scanEntries],
    generateProjectDocs_empty_project (fun _ => .error "unreadable")
      (fun _ _ => .error "parse") "demo" true []
      (by simp [listReactFiles, scanDirectory, scanEntries])⟩

theorem scanEntries_eq_spec (directory : String) (l : List FSEntry) :
    scanEntries directory l =
      ((specAllFilesUnder directory l).filter (fun f => isReactFileName f.2)).map
        (fun f => f.1) := by
  induction directory, l using scanEntries.induct with
  | case1 d => simp [scanEntries, specAllFilesUnder]
  | case2 d name rest ih =>
    by_cases h : isReactFileName name = true
    · simp [scanEntries, specAllFilesUnder, h, ih]
    · simp [scanEntries, specAllFilesUnder, h, ih]
  | case3 d name readable entries rest ih1 ih2 =>
    cases readable
    · simp [scanEntries, specAllFilesUnder, ih1, ih2]
    · simp [scanEntries, specAllFilesUnder, ih1, ih2, List.filter_append]
  | case4 d name rest ih => simp [scanEntries, specAllFilesUnder, ih]

/-- C4: for every modelled state of the project subtree, the scanner of
`listReactFiles` returns exactly the files under the subtree (reachable
through readable directories of any name, hidden ones included) whose
names end in one of the two recognized extensions; an unreadable
subdirectory only loses its own subtree, readable siblings are fully
kept, and the function is total, so the scan never raises to the
caller. -/
theorem listReactFiles_eq_spec (subFolder : String) (readable : Bool)
    (entries : List FSEntry) :
    listReactFiles subFolder readable entries =
      specScanDirectory (pathJoin PROJECT_ROOT subFolder) readable entries := by
  unfold listReactFiles scanDirectory specScanDirectory
  cases readable
  · simp
  · simpa using scanEntries_eq_spec (pathJoin PROJECT_ROOT subFolder) entries

theorem strContains_refl (t : String) : strContains t t := List.infix_rfl

theorem strContains_append_left (t s h : String) (hc : strContains t h) :
    strContains t (s ++ h) := by
  unfold strContains at hc ⊢
  rw [String.data_append]
  exact List.IsInfix.trans hc (List.suffix_append s.data h.data).isInfix

theorem strContains_append_right (t h s : String) (hc : strContains t h) :
    strContains t (h ++ s) := by
  unfold strContains at hc ⊢
  rw [String.data_append]
  exact List.IsInfix.trans hc (List.prefix_append h.data s.data).isInfix

theorem strContains_concatMap {α : Type} (f : α → String) (t : String)
    (l : List α) (c : α) (hmem : c ∈ l) (h : strContains t (f c)) :
    strContains t (concatMap f l) := by
  induction l with
  | nil => cases hmem
  | cons x rest ih =>
    rcases List.mem_cons.mp hmem with h1 | h2
    · subst h1
      exact strContains_append_right t (f c) (concatMap f rest) h
    · exact strContains_append_left t (f x) (concatMap f rest) (ih h2)

/-- C7 (counterexample): for a concrete component wrapped with "memo",
the renderer's full output is shown, and it does not contain the
wrapper name inside a code span within the italic line: the source
emits the wrapper name without backticks. -/
theorem wrapper_line_codespan_counterexample :
    generateComponentMarkdown (some (AnalysisResult.mk (some [c7Component]))) =
      "## Button\n\n*Wrapped with: memo*\n\n### Props\n\n*No props*\n\n" ∧
      ¬ strContains "*Wrapped with: `memo`*"
        (generateComponentMarkdown (some (AnalysisResult.mk (some [c7Component])))) :=
  ⟨rfl, by decide⟩

/-- C7 (amended): for every component of a rendered analysis whose
`wrapperFn` is present, the renderer's output contains the italic
annotation line "*Wrapped with: <wrapperFn>*" with the wrapper name
written plainly, not inside a code span. -/
theorem wrapper_line_plain
    (components : List Component) (c : Component) (w : String)
    (hmem : c ∈ components) (hw : c.wrapperFn = some w) :
    strContains ("*Wrapped with: " ++ w ++ "*\n\n")
      (generateComponentMarkdown (some (AnalysisResult.mk (some components)))) := by
  have hblock : strContains ("*Wrapped with: " ++ w ++ "*\n\n")
      (componentMarkdown c) := by
    simp only [componentMarkdown, hw]
    apply strContains_append_right
    apply strContains_append_right
    apply strContains_append_left
    exact strContains_refl _
  cases components with
  | nil => cases hmem
  | cons x rest =>
    have hgen : generateComponentMarkdown
        (some (AnalysisResult.mk (some (x :: rest)))) =
          concatMap componentMarkdown (x :: rest) := by
      simp [generateComponentMarkdown]
    rw [hgen]
    exact strContains_concatMap componentMarkdown _ (x :: rest) c hmem hblock

/-- Witness for the amended C7 at the concrete wrapped component. -/
theorem wrapper_line_plain_witness :
    c7Component ∈ [c7Component] ∧ c7Component.wrapperFn = some "memo" ∧
      strContains ("*Wrapped with: " ++ "memo" ++ "*\n\n")
        (generateComponentMarkdown
          (some (AnalysisResult.mk (some [c7Component])))) :=
  ⟨List.mem_cons_self c7Component [], rfl,
    wrapper_line_plain [c7Component] c7Component "memo"
      (List.mem_cons_self c7Component []) rfl⟩
